import Mathlib

/-!
# kafka-connect-exporter: the collection cycle

A shallow embedding of `kafka_connect_exporter.go`.

* The data types `task`, `connectorStatus` and `exporter` are the Go structs.
* Everything the program reaches through a library (the file system, the
  HTTP client, `encoding/json`) is a field of `Env`, a pure description of
  the world outside the process during one run.
* `Collect` is written as explicit state passing over a `World`: the trace
  of the HTTP GETs issued so far and the metrics sent on `ch` so far.
  A run ends in one of three ways (`Exit`): the function returns, `log.Fatal`
  terminates the process, or `MustNewConstMetric` panics.
* A Go `map[string]string` is a `GoMap`: its entries with pairwise distinct
  keys.  `range` over a map visits the entries in an order chosen by the
  runtime, so `Collect` takes that order as an argument; the orders the
  runtime can choose are the permutations of the entries.
* Counters are Go `int`s incremented once per task; they are bounded by the
  length of the task slice, so they never wrap, and they are kept as `Nat`.
  The sample value `float64(running)` is kept as that integer.
-/

namespace KafkaConnectExporter

/-! ## Data model -/

/-- The Go struct `task`: one task record of a connector status body. -/
structure task where
  State : String
deriving DecidableEq, Repr

/-- The Go struct `connectorStatus`: the decoded `/status` body. -/
structure connectorStatus where
  Name : String
  Tasks : List task
deriving DecidableEq, Repr

/-- A Go `map[string]string`: the entries, with pairwise distinct keys. -/
structure GoMap where
  entries : List (String × String)
  nodupKeys : (entries.map Prod.fst).Nodup

/-- The part of `prometheus.Desc` fixed by `prometheus.NewDesc`. -/
structure Desc where
  fqName : String
  help : String
  variableLabels : List String
  constLabels : List (String × String)
deriving DecidableEq, Repr

/-- The value types of `prometheus`. -/
inductive ValueType where
  | CounterValue
  | GaugeValue
  | UntypedValue
deriving DecidableEq, Repr

/-- A constant metric as built by `prometheus.NewConstMetric`. -/
structure Metric where
  desc : Desc
  valueType : ValueType
  value : Nat
  labelValues : List String
deriving DecidableEq, Repr

/-- The Go struct `exporter`. -/
structure exporter where
  config : GoMap
  runningTask : Desc
  failingTask : Desc

/-! ## The world outside the process -/

/-- What `json.Unmarshal(data, &dst)` does to `dst`.  The input is checked for
validity before anything is stored, so a syntax error leaves `dst` as it was;
valid JSON of the wrong shape stores what fits and reports a type error. -/
inductive JsonResult (α : Type) where
  | syntaxError
  | typeError (stored : α)
  | ok (stored : α)

/-- The value of `dst` after `json.Unmarshal(data, &dst)` when it held `dst0`
before and the returned error is not looked at. -/
def JsonResult.store {α : Type} (dst0 : α) : JsonResult α → α
  | .syntaxError => dst0
  | .typeError v => v
  | .ok v => v

/-- The library calls of the program, as functions of their arguments.
`Get url` is `http.Get(url)` followed by `ioutil.ReadAll` of the body:
`none` when `http.Get` returns an error, `some body` otherwise.
`ReadFile` is `ioutil.ReadFile` (`none` on error).  The three decoders are
`json.Unmarshal` at the three destination types the program uses. -/
structure Env where
  ReadFile : String → Option String
  Get : String → Option String
  unmarshalConfig : String → JsonResult GoMap
  unmarshalConnectors : String → JsonResult (List String)
  unmarshalStatus : String → JsonResult connectorStatus

/-- The observable effects of a call so far: the URLs requested and the
metrics sent on the channel, oldest first. -/
structure World where
  requests : List String
  ch : List Metric
deriving DecidableEq, Repr

/-- How a piece of code ended: it ran to its end, `log.Fatal` terminated the
process, or a panic was raised. -/
inductive Exit where
  | normal
  | fatal
  | panic
deriving DecidableEq, Repr

/-- The result of running a piece of code: the effects and how it ended. -/
structure Run where
  world : World
  exit : Exit
deriving DecidableEq, Repr

/-- The world before anything happened. -/
def World.empty : World := ⟨[], []⟩

/-- Record an HTTP GET. -/
def World.request (w : World) (url : String) : World :=
  { w with requests := w.requests ++ [url] }

/-- The channel send `ch <- m`. -/
def World.send (w : World) (m : Metric) : World :=
  { w with ch := w.ch ++ [m] }

/-! ## The program -/

/-- The call `prometheus.NewDesc(fqName, help, variableLabels, nil)`. -/
def NewDesc (fqName help : String) (variableLabels : List String) : Desc :=
  { fqName := fqName, help := help, variableLabels := variableLabels, constLabels := [] }

/-- The function `prometheus.NewConstMetric`: an error (`none`) when the number
of label values differs from the number of variable labels of the
descriptor.  `MustNewConstMetric` panics on that error. -/
def NewConstMetric (desc : Desc) (valueType : ValueType) (value : Nat)
    (labelValues : List String) : Option Metric :=
  if desc.variableLabels.length = labelValues.length then
    some { desc := desc, valueType := valueType, value := value, labelValues := labelValues }
  else none

/-- The method `exporter.Describe`: the descriptors sent on the channel. -/
def Describe (e : exporter) (ch : List Desc) : List Desc :=
  (ch ++ [e.runningTask]) ++ [e.failingTask]

/-- The classification loop of `Collect` (`for _, task := range cstatus.Tasks`),
started with the counters `running` and `failing`; the result is the pair
`(running, failing)` after the loop. -/
def countTasks : List task → Nat → Nat → Nat × Nat
  | [], running, failing => (running, failing)
  | t :: rest, running, failing =>
    if t.State = "RUNNING" then countTasks rest (running + 1) failing
    else countTasks rest running (failing + 1)

/-- The URL of the connector listing of a cluster. -/
def listURL (endpoint : String) : String :=
  "http://" ++ endpoint ++ "/connectors"

/-- The URL of the status of one connector. -/
def statusURL (endpoint connector : String) : String :=
  "http://" ++ endpoint ++ "/connectors/" ++ connector ++ "/status"

/-- The inner loop of `Collect` (`for _, connector := range connectors`) for
the cluster `name` at `endpoint`. -/
def connectorLoop (env : Env) (e : exporter) (name endpoint : String) :
    List String → World → Run
  | [], w => ⟨w, .normal⟩
  | connector :: rest, w =>
    let w1 := w.request (statusURL endpoint connector)
    match env.Get (statusURL endpoint connector) with
    | none => ⟨w1, .fatal⟩
    | some b =>
      let cstatus := (env.unmarshalStatus b).store ⟨"", []⟩
      let counts := countTasks cstatus.Tasks 0 0
      match NewConstMetric e.runningTask .GaugeValue counts.1 [name, connector] with
      | none => ⟨w1, .panic⟩
      | some m1 =>
        match NewConstMetric e.failingTask .GaugeValue counts.2 [name, connector] with
        | none => ⟨w1.send m1, .panic⟩
        | some m2 => connectorLoop env e name endpoint rest ((w1.send m1).send m2)

/-- The outer loop of `Collect` (`for name, endpoint := range e.config`) over
the entries in the order `range` yields them. -/
def clusterLoop (env : Env) (e : exporter) : List (String × String) → World → Run
  | [], w => ⟨w, .normal⟩
  | (name, endpoint) :: rest, w =>
    let w1 := w.request (listURL endpoint)
    match env.Get (listURL endpoint) with
    | none => ⟨w1, .fatal⟩
    | some body =>
      let connectors := (env.unmarshalConnectors body).store []
      let r := connectorLoop env e name endpoint connectors w1
      match r.exit with
      | .normal => clusterLoop env e rest r.world
      | _ => r

/-- The method `exporter.Collect`, for the order `order` in which `range
e.config` yields the entries of the registry in this call. -/
def Collect (env : Env) (e : exporter) (order : List (String × String)) : Run :=
  clusterLoop env e order World.empty

/-- The function `newExporter`: `none` when the process exits (the file cannot
be read or `json.Unmarshal` returns an error). -/
def newExporter (env : Env) (configfile : String) : Option exporter :=
  match env.ReadFile configfile with
  | none => none
  | some file =>
    match env.unmarshalConfig file with
    | .ok config =>
      some { config := config
             runningTask := NewDesc "kafka_connect_running_task" "Number of running task"
               ["cluster", "task"]
             failingTask := NewDesc "kafka_connect_failing_task" "Number of failing task"
               ["cluster", "task"] }
    | _ => none

/-! ## What a run is compared with -/

/-- The connector names left in `connectors` after the listing of a cluster
has been fetched and decoded (empty when the call errors). -/
def connectorsOf (env : Env) (endpoint : String) : List String :=
  match env.Get (listURL endpoint) with
  | none => []
  | some body => (env.unmarshalConnectors body).store []

/-- The task list left in `cstatus.Tasks` after the status of a connector has
been fetched and decoded (empty when the call errors). -/
def tasksOf (env : Env) (endpoint connector : String) : List task :=
  match env.Get (statusURL endpoint connector) with
  | none => []
  | some b => ((env.unmarshalStatus b).store ⟨"", []⟩).Tasks

/-- The status call of a connector returns without a network error. -/
def statusOk (env : Env) (endpoint connector : String) : Bool :=
  (env.Get (statusURL endpoint connector)).isSome

/-- Every HTTP call made for a registry entry returns without a network
error: the listing call and the status call of every listed connector. -/
def clusterOk (env : Env) (x : String × String) : Bool :=
  (env.Get (listURL x.2)).isSome && (connectorsOf env x.2).all (statusOk env x.2)

/-- The two samples of one connector: the running gauge, then the failing
gauge, both labelled with the cluster name and the listed connector name. -/
def connectorSamples (env : Env) (e : exporter) (name endpoint connector : String) :
    List Metric :=
  [ { desc := e.runningTask, valueType := .GaugeValue,
      value := (tasksOf env endpoint connector).countP (fun t => t.State = "RUNNING"),
      labelValues := [name, connector] },
    { desc := e.failingTask, valueType := .GaugeValue,
      value := (tasksOf env endpoint connector).countP (fun t => ¬ t.State = "RUNNING"),
      labelValues := [name, connector] } ]

/-- The samples of one registry entry: those of its listed connectors, in
listing order. -/
def clusterSamples (env : Env) (e : exporter) (x : String × String) : List Metric :=
  (connectorsOf env x.2).flatMap (connectorSamples env e x.1 x.2)

/-- The requests of one registry entry: the listing, then one status request
per listed connector, in listing order. -/
def clusterRequests (env : Env) (x : String × String) : List String :=
  listURL x.2 :: (connectorsOf env x.2).map (statusURL x.2)

/-- The effects of `r` placed after the effects `w`. -/
def Run.after (w : World) (r : Run) : Run :=
  ⟨⟨w.requests ++ r.world.requests, w.ch ++ r.world.ch⟩, r.exit⟩

/-- The cluster label of a sample: its first label value. -/
def Metric.cluster (m : Metric) : Option String := m.labelValues.head?

/-! ## A concrete upstream

Six clusters: `X` (two connectors, the scenario of the specification), `A`
(one healthy connector), `M` (its listing is not JSON), `D` (the status of
its connector `bad` is not JSON), `B` (the listing call fails) and `S` (the
status call of its second connector fails). -/

/-- The HTTP side of the concrete upstream. -/
def demoGet (url : String) : Option String :=
  if url = "http://x:8083/connectors" then some "[\"c1\",\"c2\"]"
  else if url = "http://x:8083/connectors/c1/status" then
    some "\x7b\"name\":\"c1\",\"tasks\":[\x7b\"state\":\"RUNNING\"\x7d,\x7b\"state\":\"RUNNING\"\x7d,\x7b\"state\":\"FAILED\"\x7d]\x7d"
  else if url = "http://x:8083/connectors/c2/status" then
    some "\x7b\"name\":\"other\",\"tasks\":[\x7b\"state\":\"PAUSED\"\x7d]\x7d"
  else if url = "http://a:8083/connectors" then some "[\"sink-1\"]"
  else if url = "http://a:8083/connectors/sink-1/status" then
    some "\x7b\"name\":\"sink-1\",\"tasks\":[\x7b\"state\":\"RUNNING\"\x7d]\x7d"
  else if url = "http://m:8083/connectors" then some "<html>502 Bad Gateway</html>"
  else if url = "http://d:8083/connectors" then some "[\"bad\",\"good\"]"
  else if url = "http://d:8083/connectors/bad/status" then some "upstream timed out"
  else if url = "http://d:8083/connectors/good/status" then
    some "\x7b\"name\":\"good\",\"tasks\":[\x7b\"state\":\"RUNNING\"\x7d]\x7d"
  else if url = "http://s:8083/connectors" then some "[\"u\",\"v\"]"
  else if url = "http://s:8083/connectors/u/status" then
    some "\x7b\"name\":\"u\",\"tasks\":[\x7b\"state\":\"FAILED\"\x7d]\x7d"
  else none

/-- The listings of the concrete upstream, decoded. -/
def demoUnmarshalConnectors (b : String) : JsonResult (List String) :=
  if b = "[\"c1\",\"c2\"]" then .ok ["c1", "c2"]
  else if b = "[\"sink-1\"]" then .ok ["sink-1"]
  else if b = "[\"bad\",\"good\"]" then .ok ["bad", "good"]
  else if b = "[\"u\",\"v\"]" then .ok ["u", "v"]
  else .syntaxError

/-- The status bodies of the concrete upstream, decoded. -/
def demoUnmarshalStatus (b : String) : JsonResult connectorStatus :=
  if b = "\x7b\"name\":\"c1\",\"tasks\":[\x7b\"state\":\"RUNNING\"\x7d,\x7b\"state\":\"RUNNING\"\x7d,\x7b\"state\":\"FAILED\"\x7d]\x7d" then
    .ok ⟨"c1", [⟨"RUNNING"⟩, ⟨"RUNNING"⟩, ⟨"FAILED"⟩]⟩
  else if b = "\x7b\"name\":\"other\",\"tasks\":[\x7b\"state\":\"PAUSED\"\x7d]\x7d" then
    .ok ⟨"other", [⟨"PAUSED"⟩]⟩
  else if b = "\x7b\"name\":\"sink-1\",\"tasks\":[\x7b\"state\":\"RUNNING\"\x7d]\x7d" then
    .ok ⟨"sink-1", [⟨"RUNNING"⟩]⟩
  else if b = "\x7b\"name\":\"good\",\"tasks\":[\x7b\"state\":\"RUNNING\"\x7d]\x7d" then
    .ok ⟨"good", [⟨"RUNNING"⟩]⟩
  else if b = "\x7b\"name\":\"u\",\"tasks\":[\x7b\"state\":\"FAILED\"\x7d]\x7d" then
    .ok ⟨"u", [⟨"FAILED"⟩]⟩
  else .syntaxError

/-- The registry of the scenario of the specification: the single cluster `X`. -/
def scenarioRegistry : GoMap := ⟨[("X", "x:8083")], by decide⟩

/-- A registry whose clusters all answer every call. -/
def demoRegistry : GoMap :=
  ⟨[("X", "x:8083"), ("A", "a:8083"), ("M", "m:8083"), ("D", "d:8083")], by decide⟩

/-- A registry with a reachable cluster `A` and an unreachable cluster `B`. -/
def isolationRegistry : GoMap := ⟨[("A", "a:8083"), ("B", "b:8083")], by decide⟩

/-- A registry with two clusters that have a failing call. -/
def failingRegistry : GoMap :=
  ⟨[("X", "x:8083"), ("A", "a:8083"), ("B", "b:8083"), ("S", "s:8083")], by decide⟩

/-- The concrete world: four configuration files and the upstream above. -/
def demoEnv : Env where
  ReadFile := fun f =>
    if f = "./config" then some "scenario registry"
    else if f = "./demo" then some "demo registry"
    else if f = "./failing" then some "failing registry"
    else if f = "./isolation" then some "isolation registry"
    else none
  Get := demoGet
  unmarshalConfig := fun s =>
    if s = "scenario registry" then .ok scenarioRegistry
    else if s = "demo registry" then .ok demoRegistry
    else if s = "failing registry" then .ok failingRegistry
    else if s = "isolation registry" then .ok isolationRegistry
    else .syntaxError
  unmarshalConnectors := demoUnmarshalConnectors
  unmarshalStatus := demoUnmarshalStatus

/-- The descriptor `newExporter` builds for the running gauge. -/
def runningDesc : Desc :=
  ⟨"kafka_connect_running_task", "Number of running task", ["cluster", "task"], []⟩

/-- The descriptor `newExporter` builds for the failing gauge. -/
def failingDesc : Desc :=
  ⟨"kafka_connect_failing_task", "Number of failing task", ["cluster", "task"], []⟩

/-- The exporter `newExporter` builds from `./config`. -/
def scenarioExporter : exporter := ⟨scenarioRegistry, runningDesc, failingDesc⟩

/-- The exporter `newExporter` builds from `./demo`. -/
def demoExporter : exporter := ⟨demoRegistry, runningDesc, failingDesc⟩

/-- The exporter `newExporter` builds from `./isolation`. -/
def isolationExporter : exporter := ⟨isolationRegistry, runningDesc, failingDesc⟩

/-- The exporter `newExporter` builds from `./failing`. -/
def failingExporter : exporter := ⟨failingRegistry, runningDesc, failingDesc⟩

/-! ## Shared lemmas -/

theorem countTasks_eq (T : List task) (running failing : Nat) :
    countTasks T running failing =
      (running + T.countP (fun t => t.State = "RUNNING"),
       failing + T.countP (fun t => ¬ t.State = "RUNNING")) := by
  induction T generalizing running failing with
  | nil => simp [countTasks]
  | cons t rest ih =>
    by_cases h : t.State = "RUNNING"
    · simp [countTasks, h, ih, List.countP_cons]; omega
    · simp [countTasks, h, ih, List.countP_cons]; omega

theorem newExporter_descs {env : Env} {configfile : String} {e : exporter}
    (he : newExporter env configfile = some e) :
    e.runningTask = NewDesc "kafka_connect_running_task" "Number of running task"
        ["cluster", "task"] ∧
    e.failingTask = NewDesc "kafka_connect_failing_task" "Number of failing task"
        ["cluster", "task"] := by
  unfold newExporter at he
  cases hf : env.ReadFile configfile with
  | none => simp [hf] at he
  | some file =>
    cases hc : env.unmarshalConfig file with
    | syntaxError => simp [hf, hc] at he
    | typeError v => simp [hf, hc] at he
    | ok config =>
      simp [hf, hc] at he
      subst he
      exact ⟨rfl, rfl⟩

theorem connectorLoop_frame (env : Env) (e : exporter) (name endpoint : String)
    (cs : List String) (w : World) :
    connectorLoop env e name endpoint cs w =
      Run.after w (connectorLoop env e name endpoint cs World.empty) := by
  induction cs generalizing w with
  | nil => simp [connectorLoop, Run.after, World.empty]
  | cons c rest ih =>
    simp only [connectorLoop]
    cases hg : env.Get (statusURL endpoint c) with
    | none => simp [Run.after, World.empty, World.request]
    | some b =>
      simp only []
      cases h1 : NewConstMetric e.runningTask .GaugeValue
          (countTasks ((env.unmarshalStatus b).store ⟨"", []⟩).Tasks 0 0).1 [name, c] with
      | none => simp [Run.after, World.empty, World.request]
      | some m1 =>
        simp only []
        cases h2 : NewConstMetric e.failingTask .GaugeValue
            (countTasks ((env.unmarshalStatus b).store ⟨"", []⟩).Tasks 0 0).2 [name, c] with
        | none => simp [Run.after, World.empty, World.request, World.send]
        | some m2 =>
          simp only []
          rw [ih (((w.request (statusURL endpoint c)).send m1).send m2),
            ih (((World.empty.request (statusURL endpoint c)).send m1).send m2)]
          simp [Run.after, World.empty, World.request, World.send]

theorem newConstMetric_two {env : Env} {configfile : String} {e : exporter}
    (he : newExporter env configfile = some e) (v : Nat) (name connector : String) :
    NewConstMetric e.runningTask .GaugeValue v [name, connector] =
        some ⟨e.runningTask, .GaugeValue, v, [name, connector]⟩ ∧
    NewConstMetric e.failingTask .GaugeValue v [name, connector] =
        some ⟨e.failingTask, .GaugeValue, v, [name, connector]⟩ := by
  obtain ⟨hr, hf⟩ := newExporter_descs he
  constructor
  · simp [NewConstMetric, hr, NewDesc]
  · simp [NewConstMetric, hf, NewDesc]

theorem newConstMetric_some {d : Desc} {t : ValueType} {v : Nat} {ls : List String}
    {m : Metric} (h : NewConstMetric d t v ls = some m) : m = ⟨d, t, v, ls⟩ := by
  unfold NewConstMetric at h
  split at h
  · exact (Option.some.inj h).symm
  · simp at h

theorem connectorLoop_step {env : Env} {configfile : String} {e : exporter}
    (he : newExporter env configfile = some e) (name endpoint c : String)
    (rest : List String) (w : World) (hc : statusOk env endpoint c = true) :
    connectorLoop env e name endpoint (c :: rest) w =
      connectorLoop env e name endpoint rest
        ⟨w.requests ++ [statusURL endpoint c],
         w.ch ++ connectorSamples env e name endpoint c⟩ := by
  unfold statusOk at hc
  obtain ⟨b, hb⟩ := Option.isSome_iff_exists.mp hc
  simp only [connectorLoop, hb, (newConstMetric_two he _ name c).1,
    (newConstMetric_two he _ name c).2]
  simp [connectorSamples, tasksOf, hb, countTasks_eq, World.request, World.send]

theorem connectorLoop_stop (env : Env) (e : exporter) (name endpoint c : String)
    (rest : List String) (w : World) (hc : statusOk env endpoint c = false) :
    connectorLoop env e name endpoint (c :: rest) w =
      ⟨⟨w.requests ++ [statusURL endpoint c], w.ch⟩, .fatal⟩ := by
  unfold statusOk at hc
  have hn : env.Get (statusURL endpoint c) = none := by
    cases h : env.Get (statusURL endpoint c) with
    | none => rfl
    | some b => simp [h] at hc
  simp [connectorLoop, hn, World.request]

theorem connectorLoop_append {env : Env} {configfile : String} {e : exporter}
    (he : newExporter env configfile = some e) (name endpoint : String)
    (pre rest : List String) (w : World)
    (hpre : ∀ c ∈ pre, statusOk env endpoint c = true) :
    connectorLoop env e name endpoint (pre ++ rest) w =
      connectorLoop env e name endpoint rest
        ⟨w.requests ++ pre.map (statusURL endpoint),
         w.ch ++ pre.flatMap (connectorSamples env e name endpoint)⟩ := by
  induction pre generalizing w with
  | nil => simp
  | cons c cs ih =>
    have hc : statusOk env endpoint c = true := hpre c (List.mem_cons_self _ _)
    have hcs : ∀ c' ∈ cs, statusOk env endpoint c' = true :=
      fun c' h => hpre c' (List.mem_cons_of_mem _ h)
    rw [List.cons_append, connectorLoop_step he name endpoint c (cs ++ rest) w hc, ih _ hcs]
    simp [List.flatMap_cons]

theorem connectorLoop_ok {env : Env} {configfile : String} {e : exporter}
    (he : newExporter env configfile = some e) (name endpoint : String)
    (cs : List String) (w : World)
    (hcs : ∀ c ∈ cs, statusOk env endpoint c = true) :
    connectorLoop env e name endpoint cs w =
      ⟨⟨w.requests ++ cs.map (statusURL endpoint),
        w.ch ++ cs.flatMap (connectorSamples env e name endpoint)⟩, .normal⟩ := by
  have h := connectorLoop_append he name endpoint cs [] w hcs
  rw [List.append_nil] at h
  rw [h]
  simp [connectorLoop]

theorem connectorLoop_fail {env : Env} {configfile : String} {e : exporter}
    (he : newExporter env configfile = some e) (name endpoint : String)
    (pre : List String) (c : String) (post : List String) (w : World)
    (hpre : ∀ c' ∈ pre, statusOk env endpoint c' = true)
    (hc : statusOk env endpoint c = false) :
    connectorLoop env e name endpoint (pre ++ c :: post) w =
      ⟨⟨w.requests ++ pre.map (statusURL endpoint) ++ [statusURL endpoint c],
        w.ch ++ pre.flatMap (connectorSamples env e name endpoint)⟩, .fatal⟩ := by
  rw [connectorLoop_append he name endpoint pre (c :: post) w hpre,
    connectorLoop_stop env e name endpoint c post _ hc]

theorem first_failure {α : Type} (p : α → Bool) (l : List α) :
    (∀ x ∈ l, p x = true) ∨
    ∃ pre x post, l = pre ++ x :: post ∧ (∀ y ∈ pre, p y = true) ∧ p x = false := by
  induction l with
  | nil => left; simp
  | cons a rest ih =>
    cases ha : p a with
    | false => exact Or.inr ⟨[], a, rest, rfl, by simp, ha⟩
    | true =>
      rcases ih with h | ⟨pre, x, post, hl, hpre, hx⟩
      · left
        intro y hy
        rcases List.mem_cons.mp hy with rfl | hy
        · exact ha
        · exact h y hy
      · right
        refine ⟨a :: pre, x, post, by simp [hl], ?_, hx⟩
        intro y hy
        rcases List.mem_cons.mp hy with rfl | hy
        · exact ha
        · exact hpre y hy

theorem clusterOk_iff (env : Env) (x : String × String) :
    clusterOk env x = true ↔
      (env.Get (listURL x.2)).isSome = true ∧
      ∀ c ∈ connectorsOf env x.2, statusOk env x.2 c = true := by
  simp [clusterOk, List.all_eq_true]

theorem clusterLoop_step {env : Env} {configfile : String} {e : exporter}
    (he : newExporter env configfile = some e) (x : String × String)
    (rest : List (String × String)) (w : World) (hx : clusterOk env x = true) :
    clusterLoop env e (x :: rest) w =
      clusterLoop env e rest
        ⟨w.requests ++ clusterRequests env x, w.ch ++ clusterSamples env e x⟩ := by
  obtain ⟨name, endpoint⟩ := x
  obtain ⟨hl, hcs⟩ := (clusterOk_iff env (name, endpoint)).mp hx
  obtain ⟨body, hb⟩ := Option.isSome_iff_exists.mp hl
  have hconn : connectorsOf env endpoint = (env.unmarshalConnectors body).store [] := by
    simp [connectorsOf, hb]
  simp only [clusterLoop, hb]
  rw [← hconn, connectorLoop_ok he name endpoint (connectorsOf env endpoint) _ hcs]
  simp [clusterRequests, clusterSamples, World.request]

theorem clusterLoop_stop_list (env : Env) (e : exporter) (name endpoint : String)
    (rest : List (String × String)) (w : World)
    (hl : env.Get (listURL endpoint) = none) :
    clusterLoop env e ((name, endpoint) :: rest) w =
      ⟨⟨w.requests ++ [listURL endpoint], w.ch⟩, .fatal⟩ := by
  simp [clusterLoop, hl, World.request]

theorem clusterLoop_stop_status {env : Env} {configfile : String} {e : exporter}
    (he : newExporter env configfile = some e) (name endpoint : String)
    (rest : List (String × String)) (w : World)
    (cpre : List String) (c : String) (cpost : List String)
    (hl : (env.Get (listURL endpoint)).isSome = true)
    (hsplit : connectorsOf env endpoint = cpre ++ c :: cpost)
    (hpre : ∀ c' ∈ cpre, statusOk env endpoint c' = true)
    (hc : statusOk env endpoint c = false) :
    clusterLoop env e ((name, endpoint) :: rest) w =
      ⟨⟨w.requests ++ listURL endpoint :: cpre.map (statusURL endpoint) ++
          [statusURL endpoint c],
        w.ch ++ cpre.flatMap (connectorSamples env e name endpoint)⟩, .fatal⟩ := by
  obtain ⟨body, hb⟩ := Option.isSome_iff_exists.mp hl
  have hconn : connectorsOf env endpoint = (env.unmarshalConnectors body).store [] := by
    simp [connectorsOf, hb]
  simp only [clusterLoop, hb]
  rw [← hconn, hsplit, connectorLoop_fail he name endpoint cpre c cpost _ hpre hc]
  simp [World.request]

theorem clusterLoop_append {env : Env} {configfile : String} {e : exporter}
    (he : newExporter env configfile = some e)
    (pre rest : List (String × String)) (w : World)
    (hpre : ∀ x ∈ pre, clusterOk env x = true) :
    clusterLoop env e (pre ++ rest) w =
      clusterLoop env e rest
        ⟨w.requests ++ pre.flatMap (clusterRequests env),
         w.ch ++ pre.flatMap (clusterSamples env e)⟩ := by
  induction pre generalizing w with
  | nil => simp
  | cons x xs ih =>
    have hx : clusterOk env x = true := hpre x (List.mem_cons_self _ _)
    have hxs : ∀ y ∈ xs, clusterOk env y = true :=
      fun y h => hpre y (List.mem_cons_of_mem _ h)
    rw [List.cons_append, clusterLoop_step he x (xs ++ rest) w hx, ih _ hxs]
    simp [List.flatMap_cons]

theorem clusterLoop_ok {env : Env} {configfile : String} {e : exporter}
    (he : newExporter env configfile = some e)
    (order : List (String × String)) (w : World)
    (hall : ∀ x ∈ order, clusterOk env x = true) :
    clusterLoop env e order w =
      ⟨⟨w.requests ++ order.flatMap (clusterRequests env),
        w.ch ++ order.flatMap (clusterSamples env e)⟩, .normal⟩ := by
  have h := clusterLoop_append he order [] w hall
  rw [List.append_nil] at h
  rw [h]
  simp [clusterLoop]

theorem collect_ok {env : Env} {configfile : String} {e : exporter}
    (he : newExporter env configfile = some e)
    (order : List (String × String))
    (hall : ∀ x ∈ order, clusterOk env x = true) :
    Collect env e order =
      ⟨⟨order.flatMap (clusterRequests env), order.flatMap (clusterSamples env e)⟩,
        .normal⟩ := by
  unfold Collect
  rw [clusterLoop_ok he order World.empty hall]
  simp [World.empty]

theorem mem_connectorSamples {env : Env} {e : exporter} {name endpoint connector : String}
    {m : Metric} (hm : m ∈ connectorSamples env e name endpoint connector) :
    (m.desc = e.runningTask ∨ m.desc = e.failingTask) ∧
      m.valueType = .GaugeValue ∧ m.labelValues = [name, connector] := by
  simp only [connectorSamples, List.mem_cons, List.mem_singleton, List.not_mem_nil,
    or_false] at hm
  rcases hm with rfl | rfl
  · exact ⟨Or.inl rfl, rfl, rfl⟩
  · exact ⟨Or.inr rfl, rfl, rfl⟩

theorem mem_clusterSamples {env : Env} {e : exporter} {x : String × String}
    {m : Metric} (hm : m ∈ clusterSamples env e x) :
    (m.desc = e.runningTask ∨ m.desc = e.failingTask) ∧
      m.valueType = .GaugeValue ∧ ∃ c, m.labelValues = [x.1, c] := by
  simp only [clusterSamples, List.mem_flatMap] at hm
  obtain ⟨c, _, hc⟩ := hm
  obtain ⟨h1, h2, h3⟩ := mem_connectorSamples hc
  exact ⟨h1, h2, c, h3⟩

theorem mem_connectorLoop (env : Env) (e : exporter) (name endpoint : String)
    (cs : List String) (w : World) (m : Metric)
    (hm : m ∈ (connectorLoop env e name endpoint cs w).world.ch) :
    m ∈ w.ch ∨ ((m.desc = e.runningTask ∨ m.desc = e.failingTask) ∧
      m.valueType = .GaugeValue ∧ ∃ c, m.labelValues = [name, c]) := by
  induction cs generalizing w with
  | nil => left; simpa [connectorLoop] using hm
  | cons c rest ih =>
    simp only [connectorLoop] at hm
    cases hg : env.Get (statusURL endpoint c) with
    | none => left; simpa [hg, World.request] using hm
    | some b =>
      simp only [hg] at hm
      cases h1 : NewConstMetric e.runningTask .GaugeValue
          (countTasks ((env.unmarshalStatus b).store ⟨"", []⟩).Tasks 0 0).1 [name, c] with
      | none => left; simpa [h1, World.request] using hm
      | some m1 =>
        simp only [h1] at hm
        have e1 := newConstMetric_some h1
        cases h2 : NewConstMetric e.failingTask .GaugeValue
            (countTasks ((env.unmarshalStatus b).store ⟨"", []⟩).Tasks 0 0).2 [name, c] with
        | none =>
          simp only [h2, World.send, World.request, List.mem_append,
            List.mem_singleton] at hm
          rcases hm with hm | rfl
          · exact Or.inl hm
          · right; subst e1; exact ⟨Or.inl rfl, rfl, c, rfl⟩
        | some m2 =>
          simp only [h2] at hm
          have e2 := newConstMetric_some h2
          rcases ih _ hm with hm | hm
          · simp only [World.send, World.request, List.mem_append,
              List.mem_singleton] at hm
            rcases hm with (hm | rfl) | rfl
            · exact Or.inl hm
            · right; subst e1; exact ⟨Or.inl rfl, rfl, c, rfl⟩
            · right; subst e2; exact ⟨Or.inr rfl, rfl, c, rfl⟩
          · exact Or.inr hm

theorem mem_clusterLoop (env : Env) (e : exporter) (order : List (String × String))
    (w : World) (m : Metric) (hm : m ∈ (clusterLoop env e order w).world.ch) :
    m ∈ w.ch ∨ ((m.desc = e.runningTask ∨ m.desc = e.failingTask) ∧
      m.valueType = .GaugeValue ∧ ∃ x ∈ order, ∃ c, m.labelValues = [x.1, c]) := by
  induction order generalizing w with
  | nil => left; simpa [clusterLoop] using hm
  | cons x rest ih =>
    obtain ⟨name, endpoint⟩ := x
    simp only [clusterLoop] at hm
    cases hg : env.Get (listURL endpoint) with
    | none => left; simpa [hg, World.request] using hm
    | some body =>
      simp only [hg] at hm
      have inner : ∀ m', m' ∈ (connectorLoop env e name endpoint
          ((env.unmarshalConnectors body).store []) (w.request (listURL endpoint))).world.ch →
          m' ∈ w.ch ∨ ((m'.desc = e.runningTask ∨ m'.desc = e.failingTask) ∧
            m'.valueType = .GaugeValue ∧
            ∃ x ∈ (name, endpoint) :: rest, ∃ c, m'.labelValues = [x.1, c]) := by
        intro m' hm'
        rcases mem_connectorLoop env e name endpoint _ _ m' hm' with h | ⟨h1, h2, c, h3⟩
        · left; simpa [World.request] using h
        · exact Or.inr ⟨h1, h2, (name, endpoint), List.mem_cons_self _ _, c, h3⟩
      cases hx : (connectorLoop env e name endpoint
          ((env.unmarshalConnectors body).store []) (w.request (listURL endpoint))).exit with
      | normal =>
        simp only [hx] at hm
        rcases ih _ hm with h | ⟨h1, h2, y, hy, c, h3⟩
        · exact inner m h
        · exact Or.inr ⟨h1, h2, y, List.mem_cons_of_mem _ hy, c, h3⟩
      | fatal =>
        simp only [hx] at hm
        exact inner m hm
      | panic =>
        simp only [hx] at hm
        exact inner m hm

theorem clusterLoop_frame (env : Env) (e : exporter) (order : List (String × String))
    (w : World) :
    clusterLoop env e order w = Run.after w (clusterLoop env e order World.empty) := by
  induction order generalizing w with
  | nil => simp [clusterLoop, Run.after, World.empty]
  | cons x rest ih =>
    obtain ⟨name, endpoint⟩ := x
    simp only [clusterLoop]
    cases hg : env.Get (listURL endpoint) with
    | none => simp [Run.after, World.empty, World.request]
    | some body =>
      simp only []
      rw [connectorLoop_frame env e name endpoint _ (w.request (listURL endpoint)),
        connectorLoop_frame env e name endpoint _ (World.empty.request (listURL endpoint))]
      generalize connectorLoop env e name endpoint
        ((env.unmarshalConnectors body).store []) World.empty = rc
      obtain ⟨wc, x⟩ := rc
      cases x with
      | normal =>
        simp only [Run.after]
        rw [ih ⟨_, _⟩]
        conv_rhs => rw [ih ⟨_, _⟩]
        simp [Run.after, World.empty, World.request]
      | fatal => simp [Run.after, World.empty, World.request]
      | panic => simp [Run.after, World.empty, World.request]

theorem clusterLoop_split_normal (env : Env) (e : exporter)
    (pre rest : List (String × String)) (w : World)
    (hn : (clusterLoop env e pre w).exit = .normal) :
    clusterLoop env e (pre ++ rest) w =
      clusterLoop env e rest (clusterLoop env e pre w).world := by
  induction pre generalizing w with
  | nil => simp [clusterLoop]
  | cons x xs ih =>
    obtain ⟨name, endpoint⟩ := x
    simp only [List.cons_append, clusterLoop] at hn ⊢
    cases hg : env.Get (listURL endpoint) with
    | none => simp [hg] at hn
    | some body =>
      simp only [hg] at hn ⊢
      cases hx : (connectorLoop env e name endpoint
          ((env.unmarshalConnectors body).store []) (w.request (listURL endpoint))).exit with
      | normal =>
        simp only [hx] at hn ⊢
        exact ih _ hn
      | fatal => simp [hx] at hn
      | panic => simp [hx] at hn

theorem clusterLoop_split_stop (env : Env) (e : exporter)
    (pre rest : List (String × String)) (w : World)
    (hn : (clusterLoop env e pre w).exit ≠ .normal) :
    clusterLoop env e (pre ++ rest) w = clusterLoop env e pre w := by
  induction pre generalizing w with
  | nil => simp [clusterLoop] at hn
  | cons x xs ih =>
    obtain ⟨name, endpoint⟩ := x
    simp only [List.cons_append, clusterLoop] at hn ⊢
    cases hg : env.Get (listURL endpoint) with
    | none => rfl
    | some body =>
      simp only [hg] at hn ⊢
      cases hx : (connectorLoop env e name endpoint
          ((env.unmarshalConnectors body).store []) (w.request (listURL endpoint))).exit with
      | normal =>
        simp only [hx] at hn ⊢
        exact ih _ hn
      | fatal => rfl
      | panic => rfl

theorem clusterLoop_skip (env : Env) (e : exporter) (name endpoint body : String)
    (rest : List (String × String)) (w : World)
    (hb : env.Get (listURL endpoint) = some body)
    (hs : env.unmarshalConnectors body = .syntaxError) :
    clusterLoop env e ((name, endpoint) :: rest) w =
      clusterLoop env e rest (w.request (listURL endpoint)) := by
  simp [clusterLoop, hb, hs, JsonResult.store, connectorLoop]

theorem keys_nodup {e : exporter} {order : List (String × String)}
    (h : order.Perm e.config.entries) : (order.map Prod.fst).Nodup :=
  (h.map Prod.fst).nodup_iff.mpr e.config.nodupKeys

/-! ## The claims -/

/-- C1: for every task list `T`, the running count and the failing count that
the classification loop of `Collect` computes from zero add up to the length
of `T`. -/
theorem C1_running_plus_failing_eq_length (T : List task) :
    (countTasks T 0 0).1 + (countTasks T 0 0).2 = T.length := by
  rw [countTasks_eq]
  simp only [Nat.zero_add]
  induction T with
  | nil => rfl
  | cons t rest ih =>
    by_cases h : t.State = "RUNNING"
    · simp only [List.countP_cons, h, decide_True, decide_False, not_true_eq_false,
        if_true, List.length_cons]
      simp only [Bool.false_eq_true, if_false]
      omega
    · simp only [List.countP_cons, h, decide_True, decide_False, not_false_eq_true,
        if_true, List.length_cons]
      simp only [Bool.false_eq_true, if_false]
      omega

/-- C2: for every task list `T`, the running count is the number of tasks whose
state is exactly `"RUNNING"` and the failing count is the number of tasks
with any other state; a `"RUNNING"` task only moves the running counter, and
the empty state, `"running"` and an unrecognised state all count as failing. -/
theorem C2_running_iff_state_is_RUNNING (T : List task) :
    (countTasks T 0 0).1 = T.countP (fun t => t.State = "RUNNING") ∧
    (countTasks T 0 0).2 = T.countP (fun t => ¬ t.State = "RUNNING") ∧
    (∀ (rest : List task) (running failing : Nat),
      countTasks (⟨"RUNNING"⟩ :: rest) running failing =
        countTasks rest (running + 1) failing) ∧
    countTasks [⟨"RUNNING"⟩] 0 0 = (1, 0) ∧
    countTasks [⟨""⟩] 0 0 = (0, 1) ∧
    countTasks [⟨"running"⟩] 0 0 = (0, 1) ∧
    countTasks [⟨"DESTROYED"⟩] 0 0 = (0, 1) ∧
    countTasks [⟨"RUNNING"⟩, ⟨""⟩, ⟨"running"⟩, ⟨"RUNNING"⟩, ⟨"FAILED"⟩] 0 0 = (2, 3) := by
  refine ⟨?_, ?_, ?_, by decide, by decide, by decide, by decide, by decide⟩
  · simp [countTasks_eq]
  · simp [countTasks_eq]
  · intro rest running failing
    simp [countTasks]

/-- C3: when every HTTP call succeeds, `Collect` returns normally and the
samples it sends are, for each registry entry in iteration order and each
connector name of its listing in listing order, the running gauge and then
the failing gauge, both labelled (registry key, listed name), with the number
of `"RUNNING"` tasks and the number of other tasks as values; nothing else is
sent.  The label is the listed name, whatever the `Name` of the status body. -/
theorem C3_two_samples_per_listed_connector {env : Env} {configfile : String} {e : exporter}
    (he : newExporter env configfile = some e) (order : List (String × String))
    (hall : ∀ x ∈ order, clusterOk env x = true) :
    (Collect env e order).exit = .normal ∧
    (Collect env e order).world.ch =
      order.flatMap (fun x => (connectorsOf env x.2).flatMap (fun connector =>
        [ { desc := runningDesc, valueType := .GaugeValue,
            value := (tasksOf env x.2 connector).countP (fun t => t.State = "RUNNING"),
            labelValues := [x.1, connector] },
          { desc := failingDesc, valueType := .GaugeValue,
            value := (tasksOf env x.2 connector).countP (fun t => ¬ t.State = "RUNNING"),
            labelValues := [x.1, connector] } ])) := by
  obtain ⟨hr, hf⟩ := newExporter_descs he
  rw [collect_ok he order hall]
  refine ⟨rfl, ?_⟩
  show order.flatMap (clusterSamples env e) = _
  congr 1
  funext x
  unfold clusterSamples
  congr 1
  funext connector
  simp only [connectorSamples, hr, hf, NewDesc, runningDesc, failingDesc]

/-- The scenario of the specification: cluster `X` lists `c1` and `c2`; `c1`
has tasks RUNNING, RUNNING, FAILED and `c2` (whose status body is named
`other`) has one PAUSED task. -/
theorem C3_scenario_witness :
    (newExporter demoEnv "./config" = some scenarioExporter ∧
      ∀ x ∈ scenarioRegistry.entries, clusterOk demoEnv x = true) ∧
    (Collect demoEnv scenarioExporter scenarioRegistry.entries).exit = .normal ∧
    (Collect demoEnv scenarioExporter scenarioRegistry.entries).world.ch =
      [ ⟨runningDesc, .GaugeValue, 2, ["X", "c1"]⟩, ⟨failingDesc, .GaugeValue, 1, ["X", "c1"]⟩,
        ⟨runningDesc, .GaugeValue, 0, ["X", "c2"]⟩, ⟨failingDesc, .GaugeValue, 1, ["X", "c2"]⟩ ] := by
  have h := @C3_two_samples_per_listed_connector demoEnv "./config" scenarioExporter rfl
    scenarioRegistry.entries (by decide)
  refine ⟨⟨rfl, by decide⟩, h.1, ?_⟩
  rw [h.2]
  decide

/-- C7: when every HTTP call for the registry succeeds, any two orders in
which `range` may visit the registry make `Collect` return normally with the
same samples up to their order: the multiset of samples does not depend on the
iteration order. -/
theorem C7_samples_independent_of_iteration_order {env : Env} {configfile : String}
    {e : exporter} (he : newExporter env configfile = some e)
    (order1 order2 : List (String × String))
    (h1 : order1.Perm e.config.entries) (h2 : order2.Perm e.config.entries)
    (hall : ∀ x ∈ e.config.entries, clusterOk env x = true) :
    (Collect env e order1).exit = .normal ∧ (Collect env e order2).exit = .normal ∧
    (Collect env e order1).world.ch.Perm (Collect env e order2).world.ch ∧
    ((Collect env e order1).world.ch : Multiset Metric) = (Collect env e order2).world.ch := by
  have hall1 : ∀ x ∈ order1, clusterOk env x = true := fun x hx => hall x (h1.subset hx)
  have hall2 : ∀ x ∈ order2, clusterOk env x = true := fun x hx => hall x (h2.subset hx)
  have hp : (order1.flatMap (clusterSamples env e)).Perm
      (order2.flatMap (clusterSamples env e)) :=
    (h1.trans h2.symm).flatMap_right _
  rw [collect_ok he order1 hall1, collect_ok he order2 hall2]
  exact ⟨rfl, rfl, hp, Multiset.coe_eq_coe.mpr hp⟩

/-- Two iteration orders of the four-cluster registry. -/
theorem C7_witness :
    (newExporter demoEnv "./demo" = some demoExporter ∧
      [("D", "d:8083"), ("X", "x:8083"), ("M", "m:8083"), ("A", "a:8083")].Perm
        demoExporter.config.entries ∧
      [("A", "a:8083"), ("M", "m:8083"), ("D", "d:8083"), ("X", "x:8083")].Perm
        demoExporter.config.entries ∧
      ∀ x ∈ demoExporter.config.entries, clusterOk demoEnv x = true) ∧
    (Collect demoEnv demoExporter
        [("D", "d:8083"), ("X", "x:8083"), ("M", "m:8083"), ("A", "a:8083")]).world.ch.Perm
      (Collect demoEnv demoExporter
        [("A", "a:8083"), ("M", "m:8083"), ("D", "d:8083"), ("X", "x:8083")]).world.ch :=
  ⟨⟨rfl, by decide, by decide, by decide⟩,
    (@C7_samples_independent_of_iteration_order demoEnv "./demo" demoExporter rfl _ _
      (by decide) (by decide) (by decide)).2.2.1⟩

/-- C8: for an exporter built by `newExporter`, `Describe` sends exactly the
running descriptor and then the failing descriptor; they are named
`kafka_connect_running_task` and `kafka_connect_failing_task` and each has the
label dimensions `cluster`, `task` in that order; and every sample `Collect`
sends, whatever the upstream and the iteration order, uses one of the two
descriptors and carries exactly two label values. -/
theorem C8_descriptor_schema {env : Env} {configfile : String} {e : exporter}
    (he : newExporter env configfile = some e) :
    Describe e [] = [e.runningTask, e.failingTask] ∧
    e.runningTask.fqName = "kafka_connect_running_task" ∧
    e.runningTask.variableLabels = ["cluster", "task"] ∧
    e.failingTask.fqName = "kafka_connect_failing_task" ∧
    e.failingTask.variableLabels = ["cluster", "task"] ∧
    ∀ (upstream : Env) (order : List (String × String)) (m : Metric),
      m ∈ (Collect upstream e order).world.ch →
        (m.desc = e.runningTask ∨ m.desc = e.failingTask) ∧ m.labelValues.length = 2 := by
  obtain ⟨hr, hf⟩ := newExporter_descs he
  refine ⟨rfl, by rw [hr]; rfl, by rw [hr]; rfl, by rw [hf]; rfl, by rw [hf]; rfl, ?_⟩
  intro upstream order m hm
  rcases mem_clusterLoop upstream e order World.empty m hm with h | ⟨hd, _, x, _, c, hl⟩
  · simp [World.empty] at h
  · exact ⟨hd, by rw [hl]; rfl⟩

/-- The exporter built from `./demo`. -/
theorem C8_witness :
    newExporter demoEnv "./demo" = some demoExporter ∧
    Describe demoExporter [] = [demoExporter.runningTask, demoExporter.failingTask] ∧
    demoExporter.runningTask.fqName = "kafka_connect_running_task" ∧
    demoExporter.runningTask.variableLabels = ["cluster", "task"] ∧
    demoExporter.failingTask.fqName = "kafka_connect_failing_task" ∧
    demoExporter.failingTask.variableLabels = ["cluster", "task"] ∧
    ∀ (upstream : Env) (order : List (String × String)) (m : Metric),
      m ∈ (Collect upstream demoExporter order).world.ch →
        (m.desc = demoExporter.runningTask ∨ m.desc = demoExporter.failingTask) ∧
          m.labelValues.length = 2 :=
  ⟨rfl, @C8_descriptor_schema demoEnv "./demo" demoExporter rfl⟩

/-- C9: when every HTTP call succeeds, the requests `Collect` issues are, for
each registry entry `(name, endpoint)` in iteration order, the GET of
`http://endpoint/connectors` followed by one GET of
`http://endpoint/connectors/c/status` for each name `c` of the decoded
listing, in listing order, and nothing else. -/
theorem C9_request_sequence {env : Env} {configfile : String} {e : exporter}
    (he : newExporter env configfile = some e) (order : List (String × String))
    (hall : ∀ x ∈ order, clusterOk env x = true) :
    (Collect env e order).world.requests =
      order.flatMap (fun x =>
        ("http://" ++ x.2 ++ "/connectors") ::
          (connectorsOf env x.2).map (fun c =>
            "http://" ++ x.2 ++ "/connectors/" ++ c ++ "/status")) := by
  rw [collect_ok he order hall]
  rfl

/-- The requests for the four-cluster registry. -/
theorem C9_witness :
    (newExporter demoEnv "./demo" = some demoExporter ∧
      ∀ x ∈ demoRegistry.entries, clusterOk demoEnv x = true) ∧
    (Collect demoEnv demoExporter demoRegistry.entries).world.requests =
      [ "http://x:8083/connectors", "http://x:8083/connectors/c1/status",
        "http://x:8083/connectors/c2/status",
        "http://a:8083/connectors", "http://a:8083/connectors/sink-1/status",
        "http://m:8083/connectors",
        "http://d:8083/connectors", "http://d:8083/connectors/bad/status",
        "http://d:8083/connectors/good/status" ] := by
  have h := @C9_request_sequence demoEnv "./demo" demoExporter rfl
    demoRegistry.entries (by decide)
  refine ⟨⟨rfl, by decide⟩, ?_⟩
  rw [h]
  decide

/-- C4, as the code behaves: with a reachable cluster `A` and an unreachable
cluster `B`, visiting `B` first terminates the process at the listing call of
`B` with nothing sent, so the samples of `A` are missing; visiting `A` first
sends the samples of `A` and then terminates the process as well. -/
theorem C4_counterexample :
    newExporter demoEnv "./isolation" = some isolationExporter ∧
    clusterOk demoEnv ("A", "a:8083") = true ∧
    demoEnv.Get (listURL "b:8083") = none ∧
    [("B", "b:8083"), ("A", "a:8083")].Perm isolationExporter.config.entries ∧
    Collect demoEnv isolationExporter [("B", "b:8083"), ("A", "a:8083")] =
      ⟨⟨["http://b:8083/connectors"], []⟩, .fatal⟩ ∧
    Collect demoEnv isolationExporter [("A", "a:8083"), ("B", "b:8083")] =
      ⟨⟨["http://a:8083/connectors", "http://a:8083/connectors/sink-1/status",
          "http://b:8083/connectors"],
        [⟨runningDesc, .GaugeValue, 1, ["A", "sink-1"]⟩,
         ⟨failingDesc, .GaugeValue, 0, ["A", "sink-1"]⟩]⟩, .fatal⟩ :=
  ⟨rfl, by decide, by decide, by decide, by decide, by decide⟩

/-- C4, amended: when the listing call of cluster `B` errors and every call
for the clusters visited before `B` succeeds, the cycle stops at the listing
call of `B`: the requests issued are those of the clusters visited before `B`
followed by the listing request of `B` and nothing after it, the samples sent
are exactly the complete samples of the clusters visited before `B`, and no
sample carries the label of `B` or of a cluster visited after `B`.  So the
samples of a reachable cluster `A` are complete when `A` is visited before
`B` and absent when it is visited after `B`.  Nothing is said here about
whether the process is still alive afterwards. -/
theorem C4_isolation_only_before_failure {env : Env} {configfile : String} {e : exporter}
    (he : newExporter env configfile = some e)
    (pre post : List (String × String)) (B endpointB : String)
    (horder : (pre ++ (B, endpointB) :: post).Perm e.config.entries)
    (hpre : ∀ x ∈ pre, clusterOk env x = true)
    (hB : env.Get (listURL endpointB) = none) :
    (Collect env e (pre ++ (B, endpointB) :: post)).world.ch =
      pre.flatMap (clusterSamples env e) ∧
    (Collect env e (pre ++ (B, endpointB) :: post)).world.requests =
      pre.flatMap (clusterRequests env) ++ [listURL endpointB] ∧
    ∀ m ∈ (Collect env e (pre ++ (B, endpointB) :: post)).world.ch,
      ∀ x ∈ (B, endpointB) :: post, m.cluster ≠ some x.1 := by
  have hrun : Collect env e (pre ++ (B, endpointB) :: post) =
      ⟨⟨pre.flatMap (clusterRequests env) ++ [listURL endpointB],
        pre.flatMap (clusterSamples env e)⟩, .fatal⟩ := by
    unfold Collect
    rw [clusterLoop_append he pre _ World.empty hpre,
      clusterLoop_stop_list env e B endpointB post _ hB]
    simp [World.empty]
  rw [hrun]
  refine ⟨rfl, rfl, ?_⟩
  intro m hm x hx hlabel
  simp only [List.mem_flatMap] at hm
  obtain ⟨y, hy, hmy⟩ := hm
  obtain ⟨_, _, c, hl⟩ := mem_clusterSamples hmy
  have hxy : y.1 = x.1 := by
    simpa [Metric.cluster, hl] using hlabel
  have hnd := keys_nodup horder
  rw [List.map_append, List.nodup_append] at hnd
  exact hnd.2.2 (List.mem_map_of_mem Prod.fst hy) (hxy ▸ List.mem_map_of_mem Prod.fst hx)

/-- Cluster `A` visited before the unreachable cluster `B`. -/
theorem C4_witness :
    (newExporter demoEnv "./isolation" = some isolationExporter ∧
      ([("A", "a:8083")] ++ ("B", "b:8083") :: []).Perm isolationExporter.config.entries ∧
      (∀ x ∈ [("A", "a:8083")], clusterOk demoEnv x = true) ∧
      demoEnv.Get (listURL "b:8083") = none) ∧
    (Collect demoEnv isolationExporter ([("A", "a:8083")] ++ ("B", "b:8083") :: [])).world.ch
      = [("A", "a:8083")].flatMap (clusterSamples demoEnv isolationExporter) ∧
    (Collect demoEnv isolationExporter
        ([("A", "a:8083")] ++ ("B", "b:8083") :: [])).world.requests
      = [("A", "a:8083")].flatMap (clusterRequests demoEnv) ++ [listURL "b:8083"] ∧
    ∀ m ∈ (Collect demoEnv isolationExporter
        ([("A", "a:8083")] ++ ("B", "b:8083") :: [])).world.ch,
      ∀ x ∈ [("B", "b:8083")], m.cluster ≠ some x.1 :=
  ⟨⟨rfl, by decide, by decide, by decide⟩,
    @C4_isolation_only_before_failure demoEnv "./isolation" isolationExporter rfl
      [("A", "a:8083")] [] "B" "b:8083" (by decide) (by decide) (by decide)⟩

/-- C5: when the listing call of a cluster returns a body that is not valid
JSON, `Collect` issues the listing request for that cluster and nothing else
(no status request, no sample, no termination, no panic) and goes on with the
remaining clusters; the samples and the way the cycle ends are those of the
cycle without that cluster, the cycle returns normally when the calls of the
other clusters succeed, and no sample carries the label of that cluster. -/
theorem C5_malformed_listing_contributes_nothing {env : Env} {configfile : String}
    {e : exporter} (he : newExporter env configfile = some e)
    (pre post : List (String × String)) (name endpoint body : String)
    (horder : (pre ++ (name, endpoint) :: post).Perm e.config.entries)
    (hb : env.Get (listURL endpoint) = some body)
    (hs : env.unmarshalConnectors body = .syntaxError) :
    (∀ (rest : List (String × String)) (w : World),
      clusterLoop env e ((name, endpoint) :: rest) w =
        clusterLoop env e rest ⟨w.requests ++ [listURL endpoint], w.ch⟩) ∧
    (Collect env e (pre ++ (name, endpoint) :: post)).world.ch =
      (Collect env e (pre ++ post)).world.ch ∧
    (Collect env e (pre ++ (name, endpoint) :: post)).exit =
      (Collect env e (pre ++ post)).exit ∧
    ((∀ x ∈ pre ++ post, clusterOk env x = true) →
      Collect env e (pre ++ (name, endpoint) :: post) =
        ⟨⟨pre.flatMap (clusterRequests env) ++ listURL endpoint ::
              post.flatMap (clusterRequests env),
          (pre ++ post).flatMap (clusterSamples env e)⟩, .normal⟩) ∧
    ∀ m ∈ (Collect env e (pre ++ (name, endpoint) :: post)).world.ch,
      m.cluster ≠ some name := by
  have hskip : ∀ (rest : List (String × String)) (w : World),
      clusterLoop env e ((name, endpoint) :: rest) w =
        clusterLoop env e rest ⟨w.requests ++ [listURL endpoint], w.ch⟩ :=
    fun rest w => clusterLoop_skip env e name endpoint body rest w hb hs
  have hsame : (Collect env e (pre ++ (name, endpoint) :: post)).world.ch =
        (Collect env e (pre ++ post)).world.ch ∧
      (Collect env e (pre ++ (name, endpoint) :: post)).exit =
        (Collect env e (pre ++ post)).exit := by
    unfold Collect
    by_cases hn : (clusterLoop env e pre World.empty).exit = .normal
    · rw [clusterLoop_split_normal env e pre _ World.empty hn,
        clusterLoop_split_normal env e pre _ World.empty hn, hskip,
        clusterLoop_frame env e post ⟨_, _⟩,
        clusterLoop_frame env e post (clusterLoop env e pre World.empty).world]
      simp [Run.after]
    · rw [clusterLoop_split_stop env e pre _ World.empty hn,
        clusterLoop_split_stop env e pre _ World.empty hn]
      exact ⟨rfl, rfl⟩
  refine ⟨hskip, hsame.1, hsame.2, ?_, ?_⟩
  · intro hall
    have hpre : ∀ x ∈ pre, clusterOk env x = true :=
      fun x hx => hall x (List.mem_append_left _ hx)
    have hpost : ∀ x ∈ post, clusterOk env x = true :=
      fun x hx => hall x (List.mem_append_right _ hx)
    unfold Collect
    rw [clusterLoop_append he pre _ World.empty hpre, hskip,
      clusterLoop_ok he post _ hpost]
    simp [World.empty]
  · intro m hm hlabel
    rw [hsame.1] at hm
    rcases mem_clusterLoop env e (pre ++ post) World.empty m hm with h | ⟨_, _, x, hx, c, hl⟩
    · simp [World.empty] at h
    · have hxn : x.1 = name := by
        simpa [Metric.cluster, hl] using hlabel
      have hnd := keys_nodup horder
      rw [List.map_append, List.map_cons] at hnd
      have hmem : x.1 ∈ (pre ++ post).map Prod.fst := List.mem_map_of_mem Prod.fst hx
      rw [hxn, List.map_append] at hmem
      exact (List.nodup_cons.mp (List.nodup_middle.mp hnd)).1 hmem

/-- Cluster `M`, whose listing is an HTML error page, between `X` and `A`. -/
theorem C5_witness :
    (newExporter demoEnv "./demo" = some demoExporter ∧
      ([("X", "x:8083"), ("A", "a:8083")] ++ ("M", "m:8083") :: [("D", "d:8083")]).Perm
        demoExporter.config.entries ∧
      demoEnv.Get (listURL "m:8083") = some "<html>502 Bad Gateway</html>" ∧
      demoEnv.unmarshalConnectors "<html>502 Bad Gateway</html>" = .syntaxError) ∧
    (Collect demoEnv demoExporter
        ([("X", "x:8083"), ("A", "a:8083")] ++ ("M", "m:8083") :: [("D", "d:8083")])).exit =
      (Collect demoEnv demoExporter ([("X", "x:8083"), ("A", "a:8083")] ++ [("D", "d:8083")])).exit ∧
    ∀ m ∈ (Collect demoEnv demoExporter
        ([("X", "x:8083"), ("A", "a:8083")] ++ ("M", "m:8083") :: [("D", "d:8083")])).world.ch,
      m.cluster ≠ some "M" :=
  have h := @C5_malformed_listing_contributes_nothing demoEnv "./demo" demoExporter rfl
    [("X", "x:8083"), ("A", "a:8083")] [("D", "d:8083")] "M" "m:8083"
    "<html>502 Bad Gateway</html>" (by decide) rfl rfl
  ⟨⟨rfl, by decide, rfl, rfl⟩, h.2.2.1, h.2.2.2.2⟩

/-- C6, as the code behaves: the status body of connector `bad` of cluster `D`
is not JSON, and `Collect` still sends a running and a failing sample for it,
both with value 0, then goes on. -/
theorem C6_counterexample :
    newExporter demoEnv "./demo" = some demoExporter ∧
    demoEnv.Get (statusURL "d:8083" "bad") = some "upstream timed out" ∧
    demoEnv.unmarshalStatus "upstream timed out" = .syntaxError ∧
    Collect demoEnv demoExporter [("D", "d:8083")] =
      ⟨⟨["http://d:8083/connectors", "http://d:8083/connectors/bad/status",
          "http://d:8083/connectors/good/status"],
        [⟨runningDesc, .GaugeValue, 0, ["D", "bad"]⟩, ⟨failingDesc, .GaugeValue, 0, ["D", "bad"]⟩,
         ⟨runningDesc, .GaugeValue, 1, ["D", "good"]⟩,
         ⟨failingDesc, .GaugeValue, 0, ["D", "good"]⟩]⟩, .normal⟩ ∧
    (⟨runningDesc, .GaugeValue, 0, ["D", "bad"]⟩ : Metric) ∈
      (Collect demoEnv demoExporter demoRegistry.entries).world.ch ∧
    (⟨failingDesc, .GaugeValue, 0, ["D", "bad"]⟩ : Metric) ∈
      (Collect demoEnv demoExporter demoRegistry.entries).world.ch :=
  ⟨rfl, by decide, rfl, by decide, by decide, by decide⟩

/-- C6, amended: the decode error of a status body is ignored.  When the
status call of a connector returns a body, `Collect` sends both samples for
that connector and goes on with the remaining connectors: with value 0 and 0
when the body is not valid JSON, and counted from the task list that was
stored when the body is valid JSON of the wrong shape.  In a cycle whose calls
all succeed both zero-valued samples of a connector with a non-JSON status
body are among the samples sent. -/
theorem C6_undecodable_status_emits_samples {env : Env} {configfile : String}
    {e : exporter} (he : newExporter env configfile = some e)
    (name endpoint connector b : String)
    (hb : env.Get (statusURL endpoint connector) = some b) :
    (env.unmarshalStatus b = .syntaxError →
      ∀ (rest : List String) (w : World),
        connectorLoop env e name endpoint (connector :: rest) w =
          connectorLoop env e name endpoint rest
            ⟨w.requests ++ [statusURL endpoint connector],
             w.ch ++ [⟨e.runningTask, .GaugeValue, 0, [name, connector]⟩,
                      ⟨e.failingTask, .GaugeValue, 0, [name, connector]⟩]⟩) ∧
    (∀ v : connectorStatus, env.unmarshalStatus b = .typeError v →
      ∀ (rest : List String) (w : World),
        connectorLoop env e name endpoint (connector :: rest) w =
          connectorLoop env e name endpoint rest
            ⟨w.requests ++ [statusURL endpoint connector],
             w.ch ++ [⟨e.runningTask, .GaugeValue,
                        v.Tasks.countP (fun t => t.State = "RUNNING"), [name, connector]⟩,
                      ⟨e.failingTask, .GaugeValue,
                        v.Tasks.countP (fun t => ¬ t.State = "RUNNING"), [name, connector]⟩]⟩) ∧
    (env.unmarshalStatus b = .syntaxError →
      ∀ order : List (String × String), (name, endpoint) ∈ order →
        connector ∈ connectorsOf env endpoint → (∀ x ∈ order, clusterOk env x = true) →
          (Collect env e order).exit = .normal ∧
          (⟨e.runningTask, .GaugeValue, 0, [name, connector]⟩ : Metric) ∈
            (Collect env e order).world.ch ∧
          (⟨e.failingTask, .GaugeValue, 0, [name, connector]⟩ : Metric) ∈
            (Collect env e order).world.ch) := by
  have hok : statusOk env endpoint connector = true := by simp [statusOk, hb]
  have hzero : env.unmarshalStatus b = .syntaxError →
      connectorSamples env e name endpoint connector =
        [⟨e.runningTask, .GaugeValue, 0, [name, connector]⟩,
         ⟨e.failingTask, .GaugeValue, 0, [name, connector]⟩] := by
    intro hs
    simp [connectorSamples, tasksOf, hb, hs, JsonResult.store]
  refine ⟨?_, ?_, ?_⟩
  · intro hs rest w
    rw [connectorLoop_step he name endpoint connector rest w hok, hzero hs]
  · intro v hv rest w
    rw [connectorLoop_step he name endpoint connector rest w hok]
    simp [connectorSamples, tasksOf, hb, hv, JsonResult.store]
  · intro hs order hmem hconn hall
    rw [collect_ok he order hall]
    have hsub : ∀ m ∈ connectorSamples env e name endpoint connector,
        m ∈ order.flatMap (clusterSamples env e) := by
      intro m hm
      exact List.mem_flatMap.mpr ⟨(name, endpoint), hmem,
        List.mem_flatMap.mpr ⟨connector, hconn, hm⟩⟩
    rw [hzero hs] at hsub
    exact ⟨rfl, hsub _ (List.mem_cons_self _ _),
      hsub _ (List.mem_cons_of_mem _ (List.mem_cons_self _ _))⟩

/-- Connector `bad` of cluster `D`, whose status body is not JSON. -/
theorem C6_witness :
    (newExporter demoEnv "./demo" = some demoExporter ∧
      demoEnv.Get (statusURL "d:8083" "bad") = some "upstream timed out") ∧
    connectorLoop demoEnv demoExporter "D" "d:8083" ("bad" :: ["good"]) World.empty =
      connectorLoop demoEnv demoExporter "D" "d:8083" ["good"]
        ⟨World.empty.requests ++ [statusURL "d:8083" "bad"],
         World.empty.ch ++ [⟨demoExporter.runningTask, .GaugeValue, 0, ["D", "bad"]⟩,
                            ⟨demoExporter.failingTask, .GaugeValue, 0, ["D", "bad"]⟩]⟩ :=
  ⟨⟨rfl, rfl⟩,
    (@C6_undecodable_status_emits_samples demoEnv "./demo" demoExporter rfl
      "D" "d:8083" "bad" "upstream timed out" rfl).1 rfl ["good"] World.empty⟩

/-- C10: when some HTTP call that `Collect` makes for the registry errors,
`Collect` terminates the process at the first such call.  The iteration order
splits at the first entry with a failing call; every entry before it is
processed in full, and either the listing call of that entry is the failing
one, or its listing splits at the first connector whose status call fails and
the connectors before it are processed in full.  The requests are exactly
those up to and including the failing call, and the samples are exactly those
of the clusters and connectors processed before it.  Some call made by
`Collect` errors exactly when some entry of the order is not `clusterOk`: the
calls before the first such entry all succeed, so its failing call is made. -/
theorem C10_fail_fast {env : Env} {configfile : String} {e : exporter}
    (he : newExporter env configfile = some e) (order : List (String × String))
    (hfail : ¬ ∀ x ∈ order, clusterOk env x = true) :
    ∃ (pre : List (String × String)) (name endpoint : String)
        (post : List (String × String)),
      order = pre ++ (name, endpoint) :: post ∧
      (∀ x ∈ pre, clusterOk env x = true) ∧
      (Collect env e order).exit = .fatal ∧
      ((env.Get (listURL endpoint) = none ∧
          (Collect env e order).world =
            ⟨pre.flatMap (clusterRequests env) ++ [listURL endpoint],
             pre.flatMap (clusterSamples env e)⟩) ∨
        ∃ (cpre : List String) (c : String) (cpost : List String),
          (env.Get (listURL endpoint)).isSome = true ∧
          connectorsOf env endpoint = cpre ++ c :: cpost ∧
          (∀ c' ∈ cpre, statusOk env endpoint c' = true) ∧
          env.Get (statusURL endpoint c) = none ∧
          (Collect env e order).world =
            ⟨pre.flatMap (clusterRequests env) ++
                (listURL endpoint :: cpre.map (statusURL endpoint) ++ [statusURL endpoint c]),
             pre.flatMap (clusterSamples env e) ++
                cpre.flatMap (connectorSamples env e name endpoint)⟩) := by
  rcases first_failure (clusterOk env) order with hall | ⟨pre, x, post, hsplit, hpre, hx⟩
  · exact absurd hall hfail
  · obtain ⟨name, endpoint⟩ := x
    refine ⟨pre, name, endpoint, post, hsplit, hpre, ?_⟩
    cases hl : env.Get (listURL endpoint) with
    | none =>
      have hrun : Collect env e order =
          ⟨⟨pre.flatMap (clusterRequests env) ++ [listURL endpoint],
            pre.flatMap (clusterSamples env e)⟩, .fatal⟩ := by
        unfold Collect
        rw [hsplit, clusterLoop_append he pre _ World.empty hpre,
          clusterLoop_stop_list env e name endpoint post _ hl]
        simp [World.empty]
      rw [hrun]
      exact ⟨rfl, Or.inl ⟨rfl, rfl⟩⟩
    | some body =>
      have hsome : (env.Get (listURL endpoint)).isSome = true := by simp [hl]
      have hconn : ¬ ∀ c ∈ connectorsOf env endpoint, statusOk env endpoint c = true := by
        intro hcs
        have hok := (clusterOk_iff env (name, endpoint)).mpr ⟨hsome, hcs⟩
        rw [hx] at hok
        exact Bool.false_ne_true hok
      rcases first_failure (statusOk env endpoint) (connectorsOf env endpoint) with
        hcs | ⟨cpre, c, cpost, hcsplit, hcpre, hc⟩
      · exact absurd hcs hconn
      · have hnone : env.Get (statusURL endpoint c) = none := by
          cases hg : env.Get (statusURL endpoint c) with
          | none => rfl
          | some b => simp [statusOk, hg] at hc
        have hrun : Collect env e order =
            ⟨⟨pre.flatMap (clusterRequests env) ++
                (listURL endpoint :: cpre.map (statusURL endpoint) ++ [statusURL endpoint c]),
              pre.flatMap (clusterSamples env e) ++
                cpre.flatMap (connectorSamples env e name endpoint)⟩, .fatal⟩ := by
          unfold Collect
          rw [hsplit, clusterLoop_append he pre _ World.empty hpre,
            clusterLoop_stop_status he name endpoint post _ cpre c cpost hsome hcsplit hcpre hc]
          simp [World.empty]
        rw [hrun]
        exact ⟨rfl, Or.inr ⟨cpre, c, cpost, rfl, hcsplit, hcpre, hnone, rfl⟩⟩

/-- The registry with the unreachable cluster `B` and the cluster `S` whose
second status call fails, visited in the order `X`, `S`, `A`, `B`. -/
theorem C10_witness :
    (newExporter demoEnv "./failing" = some failingExporter ∧
      ¬ ∀ x ∈ [("X", "x:8083"), ("S", "s:8083"), ("A", "a:8083"), ("B", "b:8083")],
        clusterOk demoEnv x = true) ∧
    (∃ (pre : List (String × String)) (name endpoint : String)
        (post : List (String × String)),
      [("X", "x:8083"), ("S", "s:8083"), ("A", "a:8083"), ("B", "b:8083")] =
        pre ++ (name, endpoint) :: post ∧
      (∀ x ∈ pre, clusterOk demoEnv x = true) ∧
      (Collect demoEnv failingExporter
        [("X", "x:8083"), ("S", "s:8083"), ("A", "a:8083"), ("B", "b:8083")]).exit = .fatal) ∧
    Collect demoEnv failingExporter
        [("X", "x:8083"), ("S", "s:8083"), ("A", "a:8083"), ("B", "b:8083")] =
      ⟨⟨["http://x:8083/connectors", "http://x:8083/connectors/c1/status",
          "http://x:8083/connectors/c2/status", "http://s:8083/connectors",
          "http://s:8083/connectors/u/status", "http://s:8083/connectors/v/status"],
        [⟨runningDesc, .GaugeValue, 2, ["X", "c1"]⟩, ⟨failingDesc, .GaugeValue, 1, ["X", "c1"]⟩,
         ⟨runningDesc, .GaugeValue, 0, ["X", "c2"]⟩, ⟨failingDesc, .GaugeValue, 1, ["X", "c2"]⟩,
         ⟨runningDesc, .GaugeValue, 0, ["S", "u"]⟩, ⟨failingDesc, .GaugeValue, 1, ["S", "u"]⟩]⟩,
        .fatal⟩ := by
  obtain ⟨pre, name, endpoint, post, h1, h2, h3, _⟩ :=
    @C10_fail_fast demoEnv "./failing" failingExporter rfl
      [("X", "x:8083"), ("S", "s:8083"), ("A", "a:8083"), ("B", "b:8083")] (by decide)
  exact ⟨⟨rfl, by decide⟩, ⟨pre, name, endpoint, post, h1, h2, h3⟩, by decide⟩

end KafkaConnectExporter
